import Mathlib

/-!
Shallow embedding of the COCOON key-manager runner and attested-tunnel helpers
(`KeyManagerRunner.cpp` / `KeyManagerRunner.hpp`, `tee/cocoon/utils.cpp`), together
with theorems settling the specification claims about them.

Machine bytes are modelled as natural numbers, byte strings as `List Nat`, and the
embedded RocksDB key-value store as an association list from string keys to raw
stored values.  Cryptographic primitives (Ed25519 signing and verification, public
key derivation) and the generated TL (de)serializers live in external libraries
outside this repository; the embedding takes them as explicit parameters in `KmEnv`.
-/

namespace Cocoon

/-- Byte string: one natural number per byte. -/
abbrev Bytes := List Nat

/-- The persistent key-value store (`td::RocksDb` behind `td::KeyValue`), as an
association list from string keys to raw stored values. -/
abbrev Db := List (String × Bytes)

/-- Lookup in the store (`kv_->get`). -/
def dbGet (db : Db) (k : String) : Option Bytes :=
  match db.find? (fun p => p.1 == k) with
  | some p => some p.2
  | none => none

/-- Write to the store (`kv_->set`), replacing any previous value under the key. -/
def dbSet (db : Db) (k : String) (v : Bytes) : Db :=
  db.filter (fun p => !(p.1 == k)) ++ [(k, v)]

/-- Erase from the store (`kv_->erase`). -/
def dbErase (db : Db) (k : String) : Db :=
  db.filter (fun p => !(p.1 == k))

/-- In-memory keypair record (`struct PrivateKey` in `KeyManagerRunner.hpp`). -/
structure PrivateKey where
  private_key : Bytes
  public_key : Bytes
  for_proxies : Bool
  for_workers : Bool
  valid_since_config_version : Nat
  valid_since : Nat
  valid_until : Nat
deriving Repr, DecidableEq

/-- Fields of the persisted TL record `cocoon_api::keyManagerDb_key`, in the order
they are passed to `create_serialize_tl_object` in `generate_key`. -/
structure StoredKeyRec where
  private_key : Bytes
  for_workers : Bool
  for_proxies : Bool
  valid_since_config_version : Nat
  valid_since : Nat
  valid_until : Nat
deriving Repr, DecidableEq

/-- External capabilities used by the runner: signing under the node private key
(`private_key_->sign`), verification under the node public key
(`public_key_obj_->verify_signature`), Ed25519 public-key derivation
(`Ed25519::PrivateKey::get_public_key`), hex encoding (`Bits256::to_hex`), and the
generated TL serializer and parser for `keyManagerDb_key` / `keyManagerDb_configV1`.
These live outside this repository (td and generated TL code); the embedding takes
them as parameters. -/
structure KmEnv where
  sign : Bytes → Bytes
  verify : Bytes → Bytes → Bool
  derivePub : Bytes → Bytes
  toHex : Bytes → String
  serKeyRec : StoredKeyRec → Bytes
  parseKeyRec : Bytes → Option StoredKeyRec
  serConfigV1 : Nat → Bytes

/-- Outcome of a store read (`get_from_db`): `fatal` models a failed `CHECK` or a
signature verification failure, which aborts the process via `ensure()`. -/
inductive DbRead where
  | fatal
  | ok (payload : Bytes)
deriving Repr, DecidableEq

/-- Embeds `KeyManagerRunner::get_from_db`: a missing key yields an empty slice; a
present value must be at least 64 bytes, its last 64 bytes must verify as a
signature of the rest under the node public key, and the rest is returned. -/
def get_from_db (env : KmEnv) (db : Db) (key : String) : DbRead :=
  match dbGet db key with
  | none => .ok []
  | some value =>
    if 64 ≤ value.length then
      let payload := value.take (value.length - 64)
      let signature := value.drop (value.length - 64)
      if env.verify payload signature then .ok payload else .fatal
    else .fatal

/-- Embeds `KeyManagerRunner::set_to_db`: the stored value is the payload followed
by its 64-byte signature under the node private key. -/
def set_to_db (env : KmEnv) (db : Db) (key : String) (value : Bytes) : Db :=
  dbSet db key (value ++ env.sign value)

/-- Splits a character list at the first underscore: the characters before it and
the characters after it (everything, paired with the empty list, when there is no
underscore). -/
def splitCharsAt : List Char → List Char × List Char
  | [] => ([], [])
  | c :: rest =>
    if c = '_' then ([], rest)
    else
      let r := splitCharsAt rest
      (c :: r.1, r.2)

/-- Embeds `td::split(key, '\x5f')`: the part before the first underscore and the
rest of the string after it (empty when there is no underscore). -/
def splitUnderscore (s : String) : String × String :=
  ((splitCharsAt s.data).1.asString, (splitCharsAt s.data).2.asString)

/-- Outcome of `process_db_key` on one store entry during the recovery scan:
abort the process (`fatal`, from `CHECK` / `LOG(FATAL)` / `ensure`), reconstruct an
in-memory record (`keep`), or pass over the entry (`skip`: a `config` entry, or a
key record that is already expired). -/
inductive ProcOut where
  | fatal
  | keep (rec : PrivateKey)
  | skip
deriving Repr, DecidableEq

/-- Embeds `KeyManagerRunner::process_db_key`, in source order: split the store key
at the first underscore; `CHECK` the value holds at least the 64 signature bytes;
verify the trailing signature under the node public key; for a `key` entry parse
the TL record, `CHECK` the derived public key matches the hex in the store key,
`CHECK` the record's config version does not exceed the active one, and keep the
record only if it has not expired; `config` entries are skipped; any other key
type is fatal (`LOG(FATAL)`). -/
def process_db_key (env : KmEnv) (activeConfigVersion now : Nat) (key : String)
    (value : Bytes) : ProcOut :=
  let keyType := (splitUnderscore key).1
  let rest := (splitUnderscore key).2
  if 64 ≤ value.length then
    let payload := value.take (value.length - 64)
    let signature := value.drop (value.length - 64)
    if env.verify payload signature then
      if keyType = "key" then
        match env.parseKeyRec payload with
        | none => .fatal
        | some obj =>
          if env.toHex (env.derivePub obj.private_key) = rest then
            if obj.valid_since_config_version ≤ activeConfigVersion then
              if now < obj.valid_until then
                .keep { private_key := obj.private_key
                        public_key := env.derivePub obj.private_key
                        for_proxies := obj.for_proxies
                        for_workers := obj.for_workers
                        valid_since_config_version := obj.valid_since_config_version
                        valid_since := obj.valid_since
                        valid_until := obj.valid_until }
              else .skip
            else .fatal
          else .fatal
      else if keyType = "config" then .skip
      else .fatal
    else .fatal
  else .fatal

/-- Fixed key TTL in seconds (`KeyManagerRunner::key_ttl`). -/
def key_ttl : Nat := 86400

/-- Mutable state of the key-manager runner that the embedded operations touch:
the initialization flag, the hash-check flag, the active and the on-chain config
versions, the role allow-lists of the root contract config, the in-memory key
ledger `private_keys_`, and the store. -/
structure KmState where
  initialized : Bool
  check_hashes : Bool
  active_config_version : Nat
  root_contract_version : Nat
  proxy_hashes : List Nat
  worker_hashes : List Nat
  private_keys : List PrivateKey
  db : Db
deriving Repr, DecidableEq

/-- The record `generate_key` builds: the private key is the 32-byte seed's octet
string, the public key its Ed25519 counterpart, the validity window starts now and
lasts `key_ttl`, and the config version is the active one at generation time. -/
def genRec (env : KmEnv) (now cfgV : Nat) (seed : Bytes)
    (for_proxies for_workers : Bool) : PrivateKey :=
  { private_key := seed
    public_key := env.derivePub seed
    for_proxies := for_proxies
    for_workers := for_workers
    valid_since_config_version := cfgV
    valid_since := now
    valid_until := now + key_ttl }

/-- Embeds `KeyManagerRunner::generate_key(for_proxies, for_workers)`.  The fresh
secure-random 32-byte seed drawn by `td::Random::secure_bytes` and the current time
`td::Clocks::system()` are inputs of the embedding.  The new record is persisted as
a signed entry under `key_` plus the hex public key and appended to the ledger. -/
def generate_key (env : KmEnv) (now : Nat) (seed : Bytes)
    (for_proxies for_workers : Bool) (st : KmState) : KmState :=
  let P := genRec env now st.active_config_version seed for_proxies for_workers
  { st with
    db := set_to_db env st.db ("key_" ++ env.toHex P.public_key)
        (env.serKeyRec
          { private_key := P.private_key
            for_workers := P.for_workers
            for_proxies := P.for_proxies
            valid_since_config_version := P.valid_since_config_version
            valid_since := P.valid_since
            valid_until := P.valid_until })
    private_keys := st.private_keys ++ [P] }

/-- Embeds `KeyManagerRunner::config_to_db`: persist the current root contract
version as a signed `config` entry. -/
def config_to_db (env : KmEnv) (st : KmState) : KmState :=
  { st with db := set_to_db env st.db "config" (env.serConfigV1 st.root_contract_version) }

/-- Records surviving the maintenance sweep: the sweep erases exactly the records
with `valid_until_ < now` (strict comparison in the source). -/
def sweepSurvivors (now : Nat) (l : List PrivateKey) : List PrivateKey :=
  l.filter (fun k => !(decide (k.valid_until < now)))

/-- Records the maintenance sweep erases (`valid_until_ < now`). -/
def sweepExpired (now : Nat) (l : List PrivateKey) : List PrivateKey :=
  l.filter (fun k => decide (k.valid_until < now))

/-- The count `w_cnt` of surviving worker-role records after the sweep. -/
def workerCount (now : Nat) (l : List PrivateKey) : Nat :=
  ((sweepSurvivors now l).filter (fun k => k.for_workers)).length

/-- The count `p_cnt` of surviving proxy-role records after the sweep. -/
def proxyCount (now : Nat) (l : List PrivateKey) : Nat :=
  ((sweepSurvivors now l).filter (fun k => k.for_proxies)).length

/-- Active config version after the maintenance cycle's first step: the on-chain
root contract version when it is ahead of the locally active one, otherwise the
active one unchanged. -/
def newACV (st : KmState) : Nat :=
  if st.active_config_version < st.root_contract_version then st.root_contract_version
  else st.active_config_version

/-- Embeds the maintenance body of `KeyManagerRunner::alarm` (inside the store
transaction): advance and persist the config version when the on-chain version is
ahead; sweep records with `valid_until_ < now`, erasing each from store and memory;
then generate a worker-only key when no worker-role record survived and a
proxy-only key when no proxy-role record survived.  `seedW` and `seedP` are the
random seeds the two potential `generate_key` calls would draw. -/
def alarmBody (env : KmEnv) (now : Nat) (seedW seedP : Bytes) (st : KmState) : KmState :=
  let bumped : KmState :=
    if st.active_config_version < st.root_contract_version then
      config_to_db env { st with active_config_version := st.root_contract_version }
    else st
  let swept : KmState :=
    { bumped with
      private_keys := sweepSurvivors now bumped.private_keys
      db := (sweepExpired now bumped.private_keys).foldl
          (fun d k => dbErase d ("key_" ++ env.toHex k.public_key)) bumped.db }
  let afterW :=
    if workerCount now bumped.private_keys = 0 then
      generate_key env now seedW false true swept
    else swept
  if proxyCount now bumped.private_keys = 0 then
    generate_key env now seedP true false afterW
  else afterW

/-- Embeds `KeyManagerRunner::alarm` as it is written: after `BaseRunner::alarm()`
(which only reschedules), the method returns immediately when `is_initialized()`
holds and otherwise runs the maintenance body. -/
def alarm (env : KmEnv) (now : Nat) (seedW seedP : Bytes) (st : KmState) : KmState :=
  if st.initialized then st else alarmBody env now seedW seedP st

/-- RPC opcode (`get_tl_magic`): the two known query magics, or any other value. -/
inductive Magic where
  | getProxyPrivateKeys
  | getWorkerPrivateKeys
  | other (magic : Nat)
deriving Repr, DecidableEq

/-- Error code attached to an RPC error (`ton::ErrorCode::error` vs `failure`). -/
inductive ECode where
  | error
  | failure
deriving Repr, DecidableEq

/-- Observable outcome of `receive_query` for the caller: the promise is never
fulfilled (`noAnswer`, an early `return`), a `keyManager_privateKeys` list, or an
error with its code and message. -/
inductive QueryResult where
  | noAnswer
  | keys (pairs : List (Nat × Bytes))
  | err (code : ECode) (msg : String)
deriving Repr, DecidableEq

/-- The `(valid_until, private_key)` pairs a `getProxyPrivateKeys` answer carries:
one pair per in-memory record with `for_proxies` set. -/
def proxyKeyPairs (l : List PrivateKey) : List (Nat × Bytes) :=
  (l.filter (fun k => k.for_proxies)).map (fun k => (k.valid_until, k.private_key))

/-- The `(valid_until, private_key)` pairs a `getWorkerPrivateKeys` answer carries:
one pair per in-memory record with `for_workers` set. -/
def workerKeyPairs (l : List PrivateKey) : List (Nat × Bytes) :=
  (l.filter (fun k => k.for_workers)).map (fun k => (k.valid_until, k.private_key))

/-- Embeds `KeyManagerRunner::receive_query`.  `conn` is the result of
`get_connection`: `none` when the connection id is unknown, otherwise the
connection's `remote_app_hash`.  The returned state is the (unchanged) runner
state; the handler never mutates the ledger or the store. -/
def receive_query (st : KmState) (conn : Option Nat) (magic : Magic) :
    KmState × QueryResult :=
  if !st.initialized then (st, .noAnswer)
  else
    match conn with
    | none => (st, .noAnswer)
    | some remote_app_hash =>
      match magic with
      | .getProxyPrivateKeys =>
        if st.check_hashes && !(st.proxy_hashes.contains remote_app_hash) then
          (st, .err .error "unknown proxy hash")
        else
          (st, .keys (proxyKeyPairs st.private_keys))
      | .getWorkerPrivateKeys =>
        if st.check_hashes && !(st.worker_hashes.contains remote_app_hash) then
          (st, .err .error "unknown worker hash")
        else
          (st, .keys (workerKeyPairs st.private_keys))
      | .other _ => (st, .err .failure "unknown query magic")

/-- A network address (`td::IPAddress`) as the pair the tunnel code reads from it:
the ip string (`get_ip_str`) and the port (`get_port`). -/
structure IPAddress where
  ip : String
  port : Nat
deriving Repr, DecidableEq

/-- Embeds `AttestedPeerInfo`, generic over the external attestation-data and
user-claims types of the tdx library. -/
structure AttestedPeerInfo (A C : Type) where
  attestation_data : A
  user_claims : C
  source_ip : String
  source_port : Nat
  destination_ip : String
  destination_port : Nat
deriving Repr, DecidableEq

/-- Embeds `make_attested_peer_info` from `tee/cocoon/utils.cpp`. -/
def make_attested_peer_info {A C : Type} (attestation : A) (user_claims : C)
    (source destination : IPAddress) : AttestedPeerInfo A C :=
  { attestation_data := attestation
    user_claims := user_claims
    source_ip := source.ip
    source_port := source.port
    destination_ip := destination.ip
    destination_port := destination.port }

/-- Embeds `PolicyHelper::validate`: delegate to the inner policy; on success build
the `AttestedPeerInfo` from the attestation data, the user claims and the two
addresses and fulfil the bridged promise with it, on failure fail the promise with
a clone of the rejection.  The first component is the value returned to the TLS
verification callback, the second the promise outcome the wrap operation awaits. -/
def policyHelperValidate {Q A C E : Type} (innerValidate : Q → C → Except E A)
    (source destination : IPAddress) (quote : Q) (user_claims : C) :
    Except E A × Except E (AttestedPeerInfo A C) :=
  match innerValidate quote user_claims with
  | .ok attestation =>
      (.ok attestation, .ok (make_attested_peer_info attestation user_claims source destination))
  | .error e => (.error e, .error e)

/-- Peer-info outcome of `wrap_tls_client` / `wrap_tls_server`: both co_await the
bridged promise that `PolicyHelper::validate` fulfils, so the awaited value is the
second component of `policyHelperValidate`. -/
def wrapPeerInfoOutcome {Q A C E : Type} (innerValidate : Q → C → Except E A)
    (source destination : IPAddress) (quote : Q) (user_claims : C) :
    Except E (AttestedPeerInfo A C) :=
  (policyHelperValidate innerValidate source destination quote user_claims).2

/-- Non-expired in the specification's sense: a key is expired once
`valid_until <= now`, so non-expired means `now < valid_until`.  Stated from the
spec's wording so the claims' notion of expiry can be compared with the code's
sweep comparison, which is strict in the other direction. -/
def specNonExpired (now : Nat) (r : PrivateKey) : Bool :=
  decide (now < r.valid_until)

/-! Concrete fixtures used to evaluate the claim theorems on explicit inputs. -/

/-- Concrete environment: the signer returns 64 zero bytes, verification accepts
exactly that signature, public-key derivation adds one to every byte, hex encoding
prints the first byte, and the TL serializers are simple injections. -/
def cEnv : KmEnv :=
  { sign := fun _ => List.replicate 64 0
    verify := fun _ s => s == List.replicate 64 0
    derivePub := fun s => s.map (fun b => b + 1)
    toHex := fun s => toString (s.headD 0)
    serKeyRec := fun r => r.private_key
    parseKeyRec := fun b =>
      some { private_key := b, for_workers := true, for_proxies := false,
             valid_since_config_version := 5, valid_since := 0, valid_until := 10 }
    serConfigV1 := fun v => [v] }

/-- A dual-role record that expired at time 50. -/
def cKexp : PrivateKey :=
  { private_key := [3], public_key := [4], for_proxies := true, for_workers := true,
    valid_since_config_version := 0, valid_since := 0, valid_until := 50 }

/-- A dual-role record whose validity ends exactly at time 100. -/
def cKeq : PrivateKey :=
  { private_key := [3], public_key := [4], for_proxies := true, for_workers := true,
    valid_since_config_version := 0, valid_since := 0, valid_until := 100 }

/-- Runner state holding only the expired record `cKexp`, with its store entry. -/
def cStExp : KmState :=
  { initialized := false, check_hashes := false, active_config_version := 0,
    root_contract_version := 0, proxy_hashes := [], worker_hashes := [],
    private_keys := [cKexp], db := [("key_4", [9])] }

/-- Runner state holding only `cKeq`, whose validity ends exactly now. -/
def cStEq : KmState :=
  { initialized := false, check_hashes := false, active_config_version := 0,
    root_contract_version := 0, proxy_hashes := [], worker_hashes := [],
    private_keys := [cKeq], db := [("key_4", [9])] }

/-- Runner state with an empty ledger. -/
def cStEmpty : KmState :=
  { initialized := false, check_hashes := false, active_config_version := 0,
    root_contract_version := 0, proxy_hashes := [], worker_hashes := [],
    private_keys := [], db := [] }

/-- Initialized runner state with pending maintenance work: an expired record and
a root contract version ahead of the active one. -/
def cStInit : KmState :=
  { initialized := true, check_hashes := false, active_config_version := 0,
    root_contract_version := 1, proxy_hashes := [], worker_hashes := [],
    private_keys := [cKexp], db := [("key_4", [9])] }

/-- The same state as `cStInit` but before initialization has completed. -/
def cStFlight : KmState :=
  { cStInit with initialized := false }

/-- Initialized runner state for the RPC claims: hash checking on, allow-lists
holding hash 7, one dual-role key in memory. -/
def cStRpc : KmState :=
  { initialized := true, check_hashes := true, active_config_version := 0,
    root_contract_version := 0, proxy_hashes := [7], worker_hashes := [7],
    private_keys := [cKeq], db := [] }

/-- Concrete attestation policy over naturals: accepts quote 1, rejects others. -/
def cPolicy : Nat → Nat → Except Nat Nat :=
  fun q c => if q = 1 then .ok (q + c) else .error 7

/-- Concrete source address. -/
def cSrc : IPAddress := { ip := "10.0.0.1", port := 1000 }

/-- Concrete destination address. -/
def cDst : IPAddress := { ip := "10.0.0.2", port := 2000 }

/-! Basic store lemmas. -/

theorem dbGet_set_self (db : Db) (k : String) (v : Bytes) :
    dbGet (dbSet db k v) k = some v := by
  induction db with
  | nil => simp [dbGet, dbSet]
  | cons hd tl ih =>
    by_cases h : hd.1 = k
    · simpa [dbGet, dbSet, h] using ih
    · simpa [dbGet, dbSet, h] using ih

theorem find?_filterOut (l : Db) (k k2 : String) (h : k2 ≠ k) :
    List.find? (fun p => p.1 == k2) (l.filter (fun p => !(p.1 == k))) =
    List.find? (fun p => p.1 == k2) l := by
  induction l with
  | nil => rfl
  | cons hd tl ih =>
    by_cases hk : hd.1 = k
    · have hk2 : ¬ (hd.1 = k2) := fun hx => h (hx ▸ hk)
      rw [List.filter_cons_of_neg (by simpa using hk),
        List.find?_cons_of_neg _ (by simpa using hk2), ih]
    · by_cases hk2 : hd.1 = k2
      · rw [List.filter_cons_of_pos (by simpa using hk),
          List.find?_cons_of_pos _ (by simpa using hk2),
          List.find?_cons_of_pos _ (by simpa using hk2)]
      · rw [List.filter_cons_of_pos (by simpa using hk),
          List.find?_cons_of_neg _ (by simpa using hk2),
          List.find?_cons_of_neg _ (by simpa using hk2), ih]

theorem dbGet_set_ne (db : Db) (k k2 : String) (v : Bytes) (h : k2 ≠ k) :
    dbGet (dbSet db k v) k2 = dbGet db k2 := by
  rw [dbGet, dbSet, List.find?_append, find?_filterOut db k k2 h,
    List.find?_cons_of_neg _ (by simpa using Ne.symm h)]
  rw [dbGet]
  cases List.find? (fun p => p.1 == k2) db <;> rfl

theorem dbGet_erase_self (db : Db) (k : String) :
    dbGet (dbErase db k) k = none := by
  induction db with
  | nil => simp [dbGet, dbErase]
  | cons hd tl ih =>
    by_cases h : hd.1 = k
    · simpa [dbGet, dbErase, h] using ih
    · simpa [dbGet, dbErase, h] using ih

theorem dbGet_erase_ne (db : Db) (k k2 : String) (h : k2 ≠ k) :
    dbGet (dbErase db k) k2 = dbGet db k2 := by
  rw [dbGet, dbErase, find?_filterOut db k k2 h, dbGet]

theorem dbGet_erase (db : Db) (k k2 : String) :
    dbGet (dbErase db k) k2 = if k2 = k then none else dbGet db k2 := by
  by_cases h : k2 = k
  · simp [h, dbGet_erase_self]
  · simp [h, dbGet_erase_ne db k k2 h]

theorem dbGet_foldl_erase_none {α : Type} (f : α → String) (l : List α) (d : Db)
    (key : String) (h : dbGet d key = none) :
    dbGet (l.foldl (fun d a => dbErase d (f a)) d) key = none := by
  induction l generalizing d with
  | nil => simpa using h
  | cons hd tl ih =>
    refine ih (dbErase d (f hd)) ?_
    rw [dbGet_erase]
    by_cases hk : key = f hd <;> simp [hk, h]

theorem dbGet_foldl_erase_of_mem {α : Type} (f : α → String) (l : List α) (d : Db)
    (key : String) (h : ∃ a ∈ l, f a = key) :
    dbGet (l.foldl (fun d a => dbErase d (f a)) d) key = none := by
  induction l generalizing d with
  | nil => simp at h
  | cons hd tl ih =>
    rcases h with ⟨a, ha, hfa⟩
    rcases List.mem_cons.mp ha with rfl | hmem
    · exact dbGet_foldl_erase_none f tl _ key (by rw [← hfa, dbGet_erase_self])
    · exact ih _ ⟨a, hmem, hfa⟩

/-! Helper lemmas about the signed store. -/

theorem signed_store_get_after_set (env : KmEnv) (db : Db) (K : String) (P : Bytes)
    (hlen : (env.sign P).length = 64)
    (hver : env.verify P (env.sign P) = true) :
    get_from_db env (set_to_db env db K P) K = .ok P := by
  have hget : dbGet (set_to_db env db K P) K = some (P ++ env.sign P) :=
    dbGet_set_self db K (P ++ env.sign P)
  have hlen2 : (P ++ env.sign P).length = P.length + 64 := by
    rw [List.length_append, hlen]
  have htakeN : List.take (List.length P + List.length (env.sign P) - 64) (P ++ env.sign P) = P := by
    rw [hlen]
    simp
  have hdropN : List.drop (List.length P + List.length (env.sign P) - 64) (P ++ env.sign P) =
      env.sign P := by
    rw [hlen]
    simp
  simp only [get_from_db, hget]
  rw [if_pos (show 64 ≤ (P ++ env.sign P).length by omega)]
  simp [htakeN, hdropN, hver]

/-- C4: for every key K and payload P, a `get_from_db K` following
`set_to_db K P` returns exactly P; the value written to the store is P
immediately followed by the 64-byte signature of P under the node private key, so
the last 64 bytes of the stored value are the signature. -/
theorem c4_signed_store_roundtrip (env : KmEnv) (db : Db) (K : String) (P : Bytes)
    (hlen : (env.sign P).length = 64)
    (hver : env.verify P (env.sign P) = true) :
    get_from_db env (set_to_db env db K P) K = .ok P ∧
    dbGet (set_to_db env db K P) K = some (P ++ env.sign P) ∧
    (P ++ env.sign P).drop ((P ++ env.sign P).length - 64) = env.sign P := by
  refine ⟨signed_store_get_after_set env db K P hlen hver, dbGet_set_self db K _, ?_⟩
  have hsub : (P ++ env.sign P).length - 64 = P.length := by
    simp [List.length_append, hlen]
  rw [hsub]
  exact List.drop_left P (env.sign P)

/-- Witness for C4 at a concrete payload and store. -/
theorem c4_signed_store_roundtrip_witness :
    (cEnv.sign [1, 2, 3]).length = 64 ∧
    cEnv.verify [1, 2, 3] (cEnv.sign [1, 2, 3]) = true ∧
    (get_from_db cEnv (set_to_db cEnv [] "k" [1, 2, 3]) "k" = .ok [1, 2, 3] ∧
     dbGet (set_to_db cEnv [] "k" [1, 2, 3]) "k" = some ([1, 2, 3] ++ cEnv.sign [1, 2, 3]) ∧
     ([1, 2, 3] ++ cEnv.sign [1, 2, 3]).drop (([1, 2, 3] ++ cEnv.sign [1, 2, 3]).length - 64) =
       cEnv.sign [1, 2, 3]) :=
  ⟨by decide, by decide,
   c4_signed_store_roundtrip cEnv [] "k" [1, 2, 3] (by decide) (by decide)⟩

/-- C10: storing an empty payload writes only the 64-byte signature, and
`get_from_db` on that key then returns the empty payload — the same observable
result it returns for a key that was never written, so a reader cannot tell an
empty stored value from no value. -/
theorem c10_empty_payload_indistinguishable (env : KmEnv) (db : Db) (K : String)
    (hlen : (env.sign []).length = 64)
    (hver : env.verify [] (env.sign []) = true)
    (habs : dbGet db K = none) :
    dbGet (set_to_db env db K []) K = some (env.sign []) ∧
    get_from_db env (set_to_db env db K []) K = .ok [] ∧
    get_from_db env db K = .ok [] := by
  refine ⟨?_, signed_store_get_after_set env db K [] hlen hver, ?_⟩
  · rw [set_to_db]
    simpa using dbGet_set_self db K ([] ++ env.sign [])
  · simp [get_from_db, habs]

/-- Witness for C10 at the `config` key of an empty store, the first-boot read. -/
theorem c10_empty_payload_indistinguishable_witness :
    (cEnv.sign []).length = 64 ∧
    cEnv.verify [] (cEnv.sign []) = true ∧
    dbGet [] "config" = none ∧
    (dbGet (set_to_db cEnv [] "config" []) "config" = some (cEnv.sign []) ∧
     get_from_db cEnv (set_to_db cEnv [] "config" []) "config" = .ok [] ∧
     get_from_db cEnv [] "config" = .ok []) :=
  ⟨by decide, by decide, by decide,
   c10_empty_payload_indistinguishable cEnv [] "config" (by decide) (by decide) (by decide)⟩

/-- C5: each fatal condition aborts the process instead of being reported or
repaired: (1) a stored value whose trailing 64-byte signature fails verification
makes `get_from_db` fatal; (2) a recovery-scan entry whose key type is neither
`key` nor `config` makes `process_db_key` fatal; (3) a recovered key record whose
`valid_since_config_version` exceeds the active config version makes
`process_db_key` fatal; (4) a recovery-scan entry whose signature fails
verification makes `process_db_key` fatal. -/
theorem c5_fatal_conditions :
    (∀ (env : KmEnv) (db : Db) (K : String) (v : Bytes),
      dbGet db K = some v → 64 ≤ v.length →
      env.verify (v.take (v.length - 64)) (v.drop (v.length - 64)) = false →
      get_from_db env db K = .fatal) ∧
    (∀ (env : KmEnv) (acv now : Nat) (key : String) (v : Bytes),
      (splitUnderscore key).1 ≠ "key" → (splitUnderscore key).1 ≠ "config" →
      process_db_key env acv now key v = .fatal) ∧
    (∀ (env : KmEnv) (acv now : Nat) (key : String) (v : Bytes) (obj : StoredKeyRec),
      64 ≤ v.length →
      env.verify (v.take (v.length - 64)) (v.drop (v.length - 64)) = true →
      (splitUnderscore key).1 = "key" →
      env.parseKeyRec (v.take (v.length - 64)) = some obj →
      env.toHex (env.derivePub obj.private_key) = (splitUnderscore key).2 →
      acv < obj.valid_since_config_version →
      process_db_key env acv now key v = .fatal) ∧
    (∀ (env : KmEnv) (acv now : Nat) (key : String) (v : Bytes),
      64 ≤ v.length →
      env.verify (v.take (v.length - 64)) (v.drop (v.length - 64)) = false →
      process_db_key env acv now key v = .fatal) := by
  refine ⟨?_, ?_, ?_, ?_⟩
  · intro env db K v hget h64 hbad
    simp only [get_from_db, hget]
    rw [if_pos h64]
    simp [hbad]
  · intro env acv now key v h1 h2
    by_cases h64 : 64 ≤ v.length
    · by_cases hv : env.verify (v.take (v.length - 64)) (v.drop (v.length - 64)) = true
      · simp [process_db_key, h64, hv, h1, h2]
      · simp [process_db_key, h64, hv]
    · simp [process_db_key, h64]
  · intro env acv now key v obj h64 hv hkey hparse hhex hver
    have hnle : ¬ (obj.valid_since_config_version ≤ acv) := by omega
    simp [process_db_key, h64, hv, hkey, hparse, hhex, hnle]
  · intro env acv now key v h64 hbad
    simp [process_db_key, h64, hbad]

/-- Witness for C5: one concrete input per fatal condition. -/
theorem c5_fatal_conditions_witness :
    get_from_db cEnv [("k", List.replicate 64 1)] "k" = .fatal ∧
    process_db_key cEnv 0 0 "weird_x" [] = .fatal ∧
    process_db_key cEnv 0 0 "key_0" (List.replicate 64 0) = .fatal ∧
    process_db_key cEnv 0 0 "key_0" (List.replicate 64 1) = .fatal :=
  ⟨c5_fatal_conditions.1 cEnv [("k", List.replicate 64 1)] "k" (List.replicate 64 1)
      (by decide) (by decide) (by decide),
   c5_fatal_conditions.2.1 cEnv 0 0 "weird_x" [] (by decide) (by decide),
   c5_fatal_conditions.2.2.1 cEnv 0 0 "key_0" (List.replicate 64 0)
      { private_key := [], for_workers := true, for_proxies := false,
        valid_since_config_version := 5, valid_since := 0, valid_until := 10 }
      (by decide) (by decide) (by decide) (by decide) (by decide) (by decide),
   c5_fatal_conditions.2.2.2 cEnv 0 0 "key_0" (List.replicate 64 1) (by decide) (by decide)⟩

/-! Helper lemmas about the maintenance cycle. -/

theorem mem_sweepSurvivors (now : Nat) (l : List PrivateKey) (k : PrivateKey) :
    k ∈ sweepSurvivors now l ↔ k ∈ l ∧ ¬ (k.valid_until < now) := by
  simp [sweepSurvivors]

theorem mem_sweepExpired (now : Nat) (l : List PrivateKey) (k : PrivateKey) :
    k ∈ sweepExpired now l ↔ k ∈ l ∧ k.valid_until < now := by
  simp [sweepExpired]

theorem string_append_cancel (p : String) {a b : String} (h : p ++ a = p ++ b) : a = b := by
  have hd : (p ++ a).data = (p ++ b).data := by rw [h]
  simp only [String.data_append] at hd
  exact String.ext (List.append_cancel_left hd)

theorem alarmBody_private_keys (env : KmEnv) (now : Nat) (seedW seedP : Bytes)
    (st : KmState) :
    (alarmBody env now seedW seedP st).private_keys =
      sweepSurvivors now st.private_keys
        ++ (if workerCount now st.private_keys = 0
            then [genRec env now (newACV st) seedW false true] else [])
        ++ (if proxyCount now st.private_keys = 0
            then [genRec env now (newACV st) seedP true false] else []) := by
  by_cases hc : st.active_config_version < st.root_contract_version <;>
  by_cases hw : workerCount now st.private_keys = 0 <;>
  by_cases hp : proxyCount now st.private_keys = 0 <;>
  simp [alarmBody, generate_key, config_to_db, newACV, hc, hw, hp]

theorem alarmBody_valid_until_ge (env : KmEnv) (now : Nat) (seedW seedP : Bytes)
    (st : KmState) :
    ∀ r ∈ (alarmBody env now seedW seedP st).private_keys, now ≤ r.valid_until := by
  intro r hr
  rw [alarmBody_private_keys] at hr
  rcases List.mem_append.mp hr with hr | hr
  · rcases List.mem_append.mp hr with hr | hr
    · exact Nat.le_of_not_lt ((mem_sweepSurvivors now _ r).mp hr).2
    · by_cases hw : workerCount now st.private_keys = 0
      · rw [if_pos hw] at hr
        rcases List.mem_singleton.mp hr with rfl
        simp [genRec]
      · rw [if_neg hw] at hr
        simp at hr
  · by_cases hp : proxyCount now st.private_keys = 0
    · rw [if_pos hp] at hr
      rcases List.mem_singleton.mp hr with rfl
      simp [genRec]
    · rw [if_neg hp] at hr
      simp at hr

/-- C1: evaluation of `alarm` as written at the failing input.  With the service
initialized and maintenance work pending (an expired record, a stale config
version), the alarm leaves the state untouched, because its guard returns when
`is_initialized()` holds; while initialization is still in flight the alarm runs
the full maintenance body instead, sweeping the expired record and advancing the
config version.  This is the inverse of the claimed (and specified) polarity. -/
theorem c1_alarm_guard_inverted :
    alarm cEnv 100 [7] [8] cStInit = cStInit ∧
    (cKexp ∈ cStInit.private_keys ∧ cKexp.valid_until < 100 ∧
     cStInit.active_config_version < cStInit.root_contract_version) ∧
    alarm cEnv 100 [7] [8] cStFlight = alarmBody cEnv 100 [7] [8] cStFlight ∧
    cKexp ∉ (alarm cEnv 100 [7] [8] cStFlight).private_keys ∧
    (alarm cEnv 100 [7] [8] cStFlight).active_config_version = 1 := by
  refine ⟨rfl, by decide, rfl, by decide, by decide⟩

/-- C2 (amended): for every key record whose `valid_until` is strictly less than
the current time when a maintenance cycle runs, after that cycle the record is
absent from the in-memory ledger, its store entry is erased, and no
`(valid_until, private_key)` pair of it appears in the lists served to
`getProxyPrivateKeys` or `getWorkerPrivateKeys`.  The freshness hypotheses say
the hex public keys of the (at most two) newly generated records differ from the
swept record's. -/
theorem c2_expired_key_swept (env : KmEnv) (now : Nat) (seedW seedP : Bytes)
    (st : KmState) (K : PrivateKey)
    (hK : K ∈ st.private_keys) (hexp : K.valid_until < now)
    (hgW : env.toHex (env.derivePub seedW) ≠ env.toHex K.public_key)
    (hgP : env.toHex (env.derivePub seedP) ≠ env.toHex K.public_key) :
    K ∉ (alarmBody env now seedW seedP st).private_keys ∧
    dbGet (alarmBody env now seedW seedP st).db ("key_" ++ env.toHex K.public_key) = none ∧
    (K.valid_until, K.private_key) ∉
      proxyKeyPairs (alarmBody env now seedW seedP st).private_keys ∧
    (K.valid_until, K.private_key) ∉
      workerKeyPairs (alarmBody env now seedW seedP st).private_keys := by
  have hvu := alarmBody_valid_until_ge env now seedW seedP st
  refine ⟨?_, ?_, ?_, ?_⟩
  · intro hmem
    exact absurd hexp (Nat.not_lt.mpr (hvu K hmem))
  · have hbase : ∀ d : Db,
        dbGet ((sweepExpired now st.private_keys).foldl
          (fun d k => dbErase d ("key_" ++ env.toHex k.public_key)) d)
          ("key_" ++ env.toHex K.public_key) = none :=
      fun d => dbGet_foldl_erase_of_mem _ _ d _
        ⟨K, (mem_sweepExpired now st.private_keys K).mpr ⟨hK, hexp⟩, rfl⟩
    have hneW : ("key_" ++ env.toHex K.public_key : String) ≠
        "key_" ++ env.toHex (env.derivePub seedW) :=
      fun hx => hgW (string_append_cancel _ hx.symm)
    have hneP : ("key_" ++ env.toHex K.public_key : String) ≠
        "key_" ++ env.toHex (env.derivePub seedP) :=
      fun hx => hgP (string_append_cancel _ hx.symm)
    have hsetW : ∀ (d : Db) (v : Bytes),
        dbGet (dbSet d ("key_" ++ env.toHex (env.derivePub seedW)) v)
          ("key_" ++ env.toHex K.public_key) =
        dbGet d ("key_" ++ env.toHex K.public_key) :=
      fun d v => dbGet_set_ne d _ _ v hneW
    have hsetP : ∀ (d : Db) (v : Bytes),
        dbGet (dbSet d ("key_" ++ env.toHex (env.derivePub seedP)) v)
          ("key_" ++ env.toHex K.public_key) =
        dbGet d ("key_" ++ env.toHex K.public_key) :=
      fun d v => dbGet_set_ne d _ _ v hneP
    by_cases hc : st.active_config_version < st.root_contract_version <;>
    by_cases hw : workerCount now st.private_keys = 0 <;>
    by_cases hp : proxyCount now st.private_keys = 0 <;>
    simp [alarmBody, generate_key, config_to_db, set_to_db, genRec, hc, hw, hp,
      hsetW, hsetP, hbase]
  · intro hmem
    simp only [proxyKeyPairs, List.mem_map, List.mem_filter] at hmem
    rcases hmem with ⟨r, ⟨hrmem, _⟩, hpair⟩
    have h1 : r.valid_until = K.valid_until := congrArg Prod.fst hpair
    have h2 := hvu r hrmem
    omega
  · intro hmem
    simp only [workerKeyPairs, List.mem_map, List.mem_filter] at hmem
    rcases hmem with ⟨r, ⟨hrmem, _⟩, hpair⟩
    have h1 : r.valid_until = K.valid_until := congrArg Prod.fst hpair
    have h2 := hvu r hrmem
    omega

/-- Witness for C2 at a concrete expired record. -/
theorem c2_expired_key_swept_witness :
    cKexp ∈ cStExp.private_keys ∧ cKexp.valid_until < 100 ∧
    cEnv.toHex (cEnv.derivePub [7]) ≠ cEnv.toHex cKexp.public_key ∧
    cEnv.toHex (cEnv.derivePub [8]) ≠ cEnv.toHex cKexp.public_key ∧
    (cKexp ∉ (alarmBody cEnv 100 [7] [8] cStExp).private_keys ∧
     dbGet (alarmBody cEnv 100 [7] [8] cStExp).db ("key_" ++ cEnv.toHex cKexp.public_key) = none ∧
     (cKexp.valid_until, cKexp.private_key) ∉
       proxyKeyPairs (alarmBody cEnv 100 [7] [8] cStExp).private_keys ∧
     (cKexp.valid_until, cKexp.private_key) ∉
       workerKeyPairs (alarmBody cEnv 100 [7] [8] cStExp).private_keys) :=
  ⟨by decide, by decide, by decide, by decide,
   c2_expired_key_swept cEnv 100 [7] [8] cStExp cKexp
     (by decide) (by decide) (by decide) (by decide)⟩

/-- C2 counterexample to the claim as stated: a record with `valid_until` equal
to the current time (so `valid_until <= now`) survives the maintenance cycle in
the ledger, in the store, and in both RPC lists, because the sweep uses the
strict comparison `valid_until_ < now`. -/
theorem c2_counterexample_at_equality :
    cKeq.valid_until ≤ 100 ∧
    cKeq ∈ (alarmBody cEnv 100 [7] [8] cStEq).private_keys ∧
    dbGet (alarmBody cEnv 100 [7] [8] cStEq).db ("key_" ++ cEnv.toHex cKeq.public_key) =
      some [9] ∧
    (cKeq.valid_until, cKeq.private_key) ∈
      proxyKeyPairs (alarmBody cEnv 100 [7] [8] cStEq).private_keys ∧
    (cKeq.valid_until, cKeq.private_key) ∈
      workerKeyPairs (alarmBody cEnv 100 [7] [8] cStEq).private_keys := by
  decide

/-- C3 (amended): after any maintenance cycle the ledger contains at least one
sweep-surviving key (`valid_until >= now`) with `for_workers = true` and one with
`for_proxies = true`; the cycle adds a worker-only key exactly when zero
worker-role keys survive the sweep and, independently, a proxy-only key exactly
when zero proxy-role keys survive, so the ledger grows by zero, one, or two
records. -/
theorem c3_role_coverage (env : KmEnv) (now : Nat) (seedW seedP : Bytes)
    (st : KmState) :
    (∃ r ∈ (alarmBody env now seedW seedP st).private_keys,
      r.for_workers = true ∧ now ≤ r.valid_until) ∧
    (∃ r ∈ (alarmBody env now seedW seedP st).private_keys,
      r.for_proxies = true ∧ now ≤ r.valid_until) ∧
    (alarmBody env now seedW seedP st).private_keys.length =
      (sweepSurvivors now st.private_keys).length
        + (if workerCount now st.private_keys = 0 then 1 else 0)
        + (if proxyCount now st.private_keys = 0 then 1 else 0) ∧
    (workerCount now st.private_keys = 0 →
      genRec env now (newACV st) seedW false true ∈
        (alarmBody env now seedW seedP st).private_keys) ∧
    (proxyCount now st.private_keys = 0 →
      genRec env now (newACV st) seedP true false ∈
        (alarmBody env now seedW seedP st).private_keys) := by
  have hchar := alarmBody_private_keys env now seedW seedP st
  refine ⟨?_, ?_, ?_, ?_, ?_⟩
  · by_cases hw : workerCount now st.private_keys = 0
    · refine ⟨genRec env now (newACV st) seedW false true, ?_, rfl, by simp [genRec]⟩
      rw [hchar]
      simp [hw]
    · have hne : ((sweepSurvivors now st.private_keys).filter (fun k => k.for_workers)) ≠ [] := by
        intro h0
        exact hw (by simp [workerCount, h0])
      obtain ⟨r, hr⟩ := List.exists_mem_of_ne_nil _ hne
      have hr2 := List.mem_filter.mp hr
      refine ⟨r, ?_, hr2.2, Nat.le_of_not_lt ((mem_sweepSurvivors now _ r).mp hr2.1).2⟩
      rw [hchar]
      exact List.mem_append.mpr (Or.inl (List.mem_append.mpr (Or.inl hr2.1)))
  · by_cases hp : proxyCount now st.private_keys = 0
    · refine ⟨genRec env now (newACV st) seedP true false, ?_, rfl, by simp [genRec]⟩
      rw [hchar]
      simp [hp]
    · have hne : ((sweepSurvivors now st.private_keys).filter (fun k => k.for_proxies)) ≠ [] := by
        intro h0
        exact hp (by simp [proxyCount, h0])
      obtain ⟨r, hr⟩ := List.exists_mem_of_ne_nil _ hne
      have hr2 := List.mem_filter.mp hr
      refine ⟨r, ?_, hr2.2, Nat.le_of_not_lt ((mem_sweepSurvivors now _ r).mp hr2.1).2⟩
      rw [hchar]
      exact List.mem_append.mpr (Or.inl (List.mem_append.mpr (Or.inl hr2.1)))
  · rw [hchar]
    by_cases hw : workerCount now st.private_keys = 0 <;>
    by_cases hp : proxyCount now st.private_keys = 0 <;>
    simp [hw, hp]
  · intro hw
    rw [hchar]
    simp [hw]
  · intro hp
    rw [hchar]
    simp [hp]

/-- Witness for C3 on the empty ledger: both role counts are zero, so both
generation hypotheses are dischargeable and both generated records appear. -/
theorem c3_role_coverage_witness :
    workerCount 100 cStEmpty.private_keys = 0 ∧
    proxyCount 100 cStEmpty.private_keys = 0 ∧
    genRec cEnv 100 (newACV cStEmpty) [7] false true ∈
      (alarmBody cEnv 100 [7] [8] cStEmpty).private_keys ∧
    genRec cEnv 100 (newACV cStEmpty) [8] true false ∈
      (alarmBody cEnv 100 [7] [8] cStEmpty).private_keys :=
  ⟨by decide, by decide,
   (c3_role_coverage cEnv 100 [7] [8] cStEmpty).2.2.2.1 (by decide),
   (c3_role_coverage cEnv 100 [7] [8] cStEmpty).2.2.2.2 (by decide)⟩

/-- C3 counterexample to the claim as stated: with a single dual-role record
whose `valid_until` equals the current time, the cycle generates nothing (one
worker-role and one proxy-role record survive the sweep), yet afterwards no
record is non-expired in the specification's sense (`now < valid_until`). -/
theorem c3_counterexample_at_equality :
    (alarmBody cEnv 100 [7] [8] cStEq).private_keys.filter (specNonExpired 100) = [] ∧
    (alarmBody cEnv 100 [7] [8] cStEq).private_keys ≠ [] ∧
    workerCount 100 cStEq.private_keys ≠ 0 ∧
    proxyCount 100 cStEq.private_keys ≠ 0 := by
  decide

/-- C6: for every RPC query on a recognized connection of an initialized
service: when hash checking is enabled and the caller's remote app hash is
absent from the proxy (worker) allow-list, `getProxyPrivateKeys`
(`getWorkerPrivateKeys`) fails with a fixed authorization error that carries no
key material — the same error whatever the ledger holds — and leaves the state
unchanged; otherwise the answer lists one `(valid_until, private_key)` pair for
every in-memory key whose matching role flag is set. -/
theorem c6_rpc_authorization (st : KmState) (h : Nat) (hinit : st.initialized = true) :
    (st.check_hashes = true → st.proxy_hashes.contains h = false →
      ∀ l : List PrivateKey,
        receive_query { st with private_keys := l } (some h) .getProxyPrivateKeys =
          ({ st with private_keys := l }, .err .error "unknown proxy hash")) ∧
    (st.check_hashes = true → st.worker_hashes.contains h = false →
      ∀ l : List PrivateKey,
        receive_query { st with private_keys := l } (some h) .getWorkerPrivateKeys =
          ({ st with private_keys := l }, .err .error "unknown worker hash")) ∧
    (st.check_hashes = false ∨ st.proxy_hashes.contains h = true →
      receive_query st (some h) .getProxyPrivateKeys =
        (st, .keys (proxyKeyPairs st.private_keys))) ∧
    (st.check_hashes = false ∨ st.worker_hashes.contains h = true →
      receive_query st (some h) .getWorkerPrivateKeys =
        (st, .keys (workerKeyPairs st.private_keys))) ∧
    (∀ k ∈ st.private_keys, k.for_proxies = true →
      (k.valid_until, k.private_key) ∈ proxyKeyPairs st.private_keys) ∧
    (∀ k ∈ st.private_keys, k.for_workers = true →
      (k.valid_until, k.private_key) ∈ workerKeyPairs st.private_keys) := by
  refine ⟨?_, ?_, ?_, ?_, ?_, ?_⟩
  · intro hch hco l
    have hni : h ∉ st.proxy_hashes := by simpa using hco
    simp [receive_query, hinit, hch, hni]
  · intro hch hco l
    have hni : h ∉ st.worker_hashes := by simpa using hco
    simp [receive_query, hinit, hch, hni]
  · intro hor
    rcases hor with hch | hco
    · simp [receive_query, hinit, hch]
    · have hni : h ∈ st.proxy_hashes := by simpa using hco
      simp [receive_query, hinit, hni]
  · intro hor
    rcases hor with hch | hco
    · simp [receive_query, hinit, hch]
    · have hni : h ∈ st.worker_hashes := by simpa using hco
      simp [receive_query, hinit, hni]
  · intro k hk hflag
    exact List.mem_map.mpr ⟨k, List.mem_filter.mpr ⟨hk, by simpa using hflag⟩, rfl⟩
  · intro k hk hflag
    exact List.mem_map.mpr ⟨k, List.mem_filter.mpr ⟨hk, by simpa using hflag⟩, rfl⟩

/-- Witness for C6: hash 9 is refused on both surfaces with the fixed error for
any ledger contents; hash 7 is allowed and receives the role-filtered pairs. -/
theorem c6_rpc_authorization_witness :
    cStRpc.initialized = true ∧
    cStRpc.check_hashes = true ∧
    cStRpc.proxy_hashes.contains 9 = false ∧
    receive_query { cStRpc with private_keys := [cKeq] } (some 9) .getProxyPrivateKeys =
      ({ cStRpc with private_keys := [cKeq] }, .err .error "unknown proxy hash") ∧
    receive_query { cStRpc with private_keys := [cKeq] } (some 9) .getWorkerPrivateKeys =
      ({ cStRpc with private_keys := [cKeq] }, .err .error "unknown worker hash") ∧
    receive_query cStRpc (some 7) .getProxyPrivateKeys =
      (cStRpc, .keys (proxyKeyPairs cStRpc.private_keys)) ∧
    receive_query cStRpc (some 7) .getWorkerPrivateKeys =
      (cStRpc, .keys (workerKeyPairs cStRpc.private_keys)) :=
  ⟨rfl, rfl, by decide,
   (c6_rpc_authorization cStRpc 9 rfl).1 rfl (by decide) [cKeq],
   (c6_rpc_authorization cStRpc 9 rfl).2.1 rfl (by decide) [cKeq],
   (c6_rpc_authorization cStRpc 7 rfl).2.2.1 (Or.inr (by decide)),
   (c6_rpc_authorization cStRpc 7 rfl).2.2.2.1 (Or.inr (by decide))⟩

/-- C7: the record produced by `generate_key(for_proxies, for_workers)` has the
seed as private key, its Ed25519 counterpart as public key, `valid_since = now`,
`valid_until = now + key_ttl` with `key_ttl = 86400`, the active config version,
and the requested role flags; it is appended to the in-memory ledger and
persisted as a signed store entry keyed by `key_` plus the hex public key. -/
theorem c7_generate_key_record (env : KmEnv) (now : Nat) (seed : Bytes)
    (fp fw : Bool) (st : KmState) (_hseed : seed.length = 32) :
    (generate_key env now seed fp fw st).private_keys =
      st.private_keys ++ [genRec env now st.active_config_version seed fp fw] ∧
    (genRec env now st.active_config_version seed fp fw).private_key = seed ∧
    (genRec env now st.active_config_version seed fp fw).public_key =
      env.derivePub (genRec env now st.active_config_version seed fp fw).private_key ∧
    (genRec env now st.active_config_version seed fp fw).for_proxies = fp ∧
    (genRec env now st.active_config_version seed fp fw).for_workers = fw ∧
    (genRec env now st.active_config_version seed fp fw).valid_since = now ∧
    (genRec env now st.active_config_version seed fp fw).valid_until = now + key_ttl ∧
    key_ttl = 86400 ∧
    (genRec env now st.active_config_version seed fp fw).valid_since_config_version =
      st.active_config_version ∧
    dbGet (generate_key env now seed fp fw st).db
        ("key_" ++ env.toHex (env.derivePub seed)) =
      some (env.serKeyRec
              { private_key := seed, for_workers := fw, for_proxies := fp,
                valid_since_config_version := st.active_config_version,
                valid_since := now, valid_until := now + key_ttl }
            ++ env.sign (env.serKeyRec
              { private_key := seed, for_workers := fw, for_proxies := fp,
                valid_since_config_version := st.active_config_version,
                valid_since := now, valid_until := now + key_ttl })) := by
  refine ⟨rfl, rfl, rfl, rfl, rfl, rfl, rfl, rfl, rfl, ?_⟩
  exact dbGet_set_self st.db _ _

/-- Witness for C7 at a 32-byte seed. -/
theorem c7_generate_key_record_witness :
    (List.replicate 32 9).length = 32 ∧
    (generate_key cEnv 100 (List.replicate 32 9) true false cStEmpty).private_keys =
      cStEmpty.private_keys ++
        [genRec cEnv 100 cStEmpty.active_config_version (List.replicate 32 9) true false] ∧
    dbGet (generate_key cEnv 100 (List.replicate 32 9) true false cStEmpty).db
        ("key_" ++ cEnv.toHex (cEnv.derivePub (List.replicate 32 9))) =
      some (cEnv.serKeyRec
              { private_key := List.replicate 32 9, for_workers := false,
                for_proxies := true,
                valid_since_config_version := cStEmpty.active_config_version,
                valid_since := 100, valid_until := 100 + key_ttl }
            ++ cEnv.sign (cEnv.serKeyRec
              { private_key := List.replicate 32 9, for_workers := false,
                for_proxies := true,
                valid_since_config_version := cStEmpty.active_config_version,
                valid_since := 100, valid_until := 100 + key_ttl })) :=
  ⟨by decide,
   (c7_generate_key_record cEnv 100 (List.replicate 32 9) true false cStEmpty (by decide)).1,
   (c7_generate_key_record cEnv 100 (List.replicate 32 9) true false cStEmpty
      (by decide)).2.2.2.2.2.2.2.2.2⟩

/-- C8: when the attestation policy accepts, the wrap operation's awaited peer
info is exactly the `AttestedPeerInfo` built from the policy's attestation data,
the connection's user claims, and the wrap call's source and destination
addresses (and TLS verification is told of the acceptance); when the policy
rejects, the operation fails with that same rejection instead. -/
theorem c8_wrap_attested_peer_info {Q A C E : Type}
    (innerValidate : Q → C → Except E A) (source destination : IPAddress)
    (quote : Q) (claims : C) :
    (∀ a : A, innerValidate quote claims = .ok a →
      (policyHelperValidate innerValidate source destination quote claims).1 = .ok a ∧
      wrapPeerInfoOutcome innerValidate source destination quote claims =
        .ok { attestation_data := a, user_claims := claims,
              source_ip := source.ip, source_port := source.port,
              destination_ip := destination.ip, destination_port := destination.port }) ∧
    (∀ e : E, innerValidate quote claims = .error e →
      (policyHelperValidate innerValidate source destination quote claims).1 = .error e ∧
      wrapPeerInfoOutcome innerValidate source destination quote claims = .error e) := by
  constructor
  · intro a ha
    simp [policyHelperValidate, wrapPeerInfoOutcome, make_attested_peer_info, ha]
  · intro e he
    simp [policyHelperValidate, wrapPeerInfoOutcome, he]

/-- Witness for C8: the concrete policy accepts quote 1 and rejects quote 2. -/
theorem c8_wrap_attested_peer_info_witness :
    cPolicy 1 5 = .ok 6 ∧
    ((policyHelperValidate cPolicy cSrc cDst 1 5).1 = .ok 6 ∧
     wrapPeerInfoOutcome cPolicy cSrc cDst 1 5 =
       .ok { attestation_data := 6, user_claims := 5,
             source_ip := "10.0.0.1", source_port := 1000,
             destination_ip := "10.0.0.2", destination_port := 2000 }) ∧
    cPolicy 2 5 = .error 7 ∧
    ((policyHelperValidate cPolicy cSrc cDst 2 5).1 = .error 7 ∧
     wrapPeerInfoOutcome cPolicy cSrc cDst 2 5 = .error 7) :=
  ⟨rfl,
   (c8_wrap_attested_peer_info cPolicy cSrc cDst 1 5).1 6 rfl,
   rfl,
   (c8_wrap_attested_peer_info cPolicy cSrc cDst 2 5).2 7 rfl⟩

/-- C9: an uninitialized service, or a connection id the service does not
recognize, makes `receive_query` return without fulfilling the response promise
at all, while a recognized connection sending an unknown opcode receives the
explicit error with message `unknown query magic`. -/
theorem c9_unanswered_queries (st : KmState) (conn : Option Nat) (m : Magic)
    (h v : Nat) :
    (st.initialized = false → receive_query st conn m = (st, .noAnswer)) ∧
    (st.initialized = true → receive_query st none m = (st, .noAnswer)) ∧
    (st.initialized = true →
      receive_query st (some h) (.other v) = (st, .err .failure "unknown query magic")) := by
  refine ⟨?_, ?_, ?_⟩ <;> intro hi <;> simp [receive_query, hi]

/-- Witness for C9 at concrete states and a concrete unknown opcode. -/
theorem c9_unanswered_queries_witness :
    cStEmpty.initialized = false ∧
    receive_query cStEmpty (some 7) .getProxyPrivateKeys = (cStEmpty, .noAnswer) ∧
    cStRpc.initialized = true ∧
    receive_query cStRpc none .getProxyPrivateKeys = (cStRpc, .noAnswer) ∧
    receive_query cStRpc (some 7) (.other 12345) =
      (cStRpc, .err .failure "unknown query magic") :=
  ⟨rfl,
   (c9_unanswered_queries cStEmpty (some 7) .getProxyPrivateKeys 7 12345).1 rfl,
   rfl,
   (c9_unanswered_queries cStRpc none .getProxyPrivateKeys 7 12345).2.1 rfl,
   (c9_unanswered_queries cStRpc (some 7) .getProxyPrivateKeys 7 12345).2.2 rfl⟩

end Cocoon
